import Mathlib

/-!
Shallow embedding of the GView LOG type plugin (`src/Types/LOG/src/LOGFile.cpp`
and `src/Types/LOG/include/log.hpp`).

Text content is modelled as `List Char` (one entry per byte of the
ASCII/UTF-8-compatible document).  `std::string_view::find` and friends are
modelled by explicit recursive functions; C++ machine integers that cannot
overflow under the 50 MiB parse cap are modelled as `Nat`.
-/

namespace LogSpec

/-- `enum class LogLevel` from `log.hpp`. -/
inductive LogLevel where
  | Unknown
  | Trace
  | Debug
  | Info
  | Warning
  | Error
  | Fatal
  | Critical
deriving DecidableEq, Repr

/-- `enum class LogFormat` from `log.hpp`. -/
inductive LogFormat where
  | Unknown
  | Apache
  | ApacheError
  | Syslog
  | WindowsEvent
  | IIS
  | Log4j
  | JSON
  | Custom
deriving DecidableEq, Repr

/-- `struct LogEntry` from `log.hpp`; string fields are char lists, the
default constructor zero-initialises offsets and sets `level = Unknown`,
`httpStatus = 0`. -/
structure LogEntry where
  lineStart : Nat := 0
  lineEnd : Nat := 0
  lineNumber : Nat := 0
  timestamp : List Char := []
  level : LogLevel := .Unknown
  source : List Char := []
  message : List Char := []
  ipAddress : List Char := []
  httpMethod : List Char := []
  url : List Char := []
  httpStatus : Nat := 0
  responseSize : Nat := 0
  userAgent : List Char := []
  referer : List Char := []
deriving DecidableEq, Repr

/-- `struct LogStatistics` from `log.hpp`; all counters start at zero. -/
structure LogStatistics where
  totalLines : Nat := 0
  errorCount : Nat := 0
  warningCount : Nat := 0
  infoCount : Nat := 0
  debugCount : Nat := 0
  traceCount : Nat := 0
  fatalCount : Nat := 0
  unknownCount : Nat := 0
  http2xxCount : Nat := 0
  http3xxCount : Nat := 0
  http4xxCount : Nat := 0
  http5xxCount : Nat := 0
  firstTimestamp : List Char := []
  lastTimestamp : List Char := []
deriving DecidableEq, Repr

/-! ### String primitives (models of `std::string_view` operations) -/

/-- `std::string_view::find(char, from)`: index of the first occurrence of
`c` in `s` at or after index `i` (absolute index), `none` for `npos`. -/
def findCharFrom (s : List Char) (c : Char) (i : Nat) : Option Nat :=
  ((s.drop i).findIdx? (· = c)).map (· + i)

/-- `std::string_view::find(char)`. -/
def findChar (s : List Char) (c : Char) : Option Nat :=
  findCharFrom s c 0

/-- Helper for substring search: first index `≥ i` at which `pat` occurs. -/
def findSubstrAux (pat : List Char) : List Char → Nat → Option Nat
  | s, i =>
    if pat.isPrefixOf s then some i
    else
      match s with
      | [] => none
      | _ :: t => findSubstrAux pat t (i + 1)

/-- `std::string_view::find(pat)`: index of the first occurrence of the
substring `pat`, `none` for `npos`. -/
def findSubstr (pat s : List Char) : Option Nat :=
  findSubstrAux pat s 0

/-- `std::string_view::find(pat, from)`: first occurrence at or after `i`. -/
def findSubstrFrom (pat s : List Char) (i : Nat) : Option Nat :=
  (findSubstrAux pat (s.drop i) 0).map (· + i)

/-- `s.find(pat) != npos`, substring containment. -/
def containsSub (s pat : List Char) : Bool :=
  (findSubstr pat s).isSome

/-- `std::string_view::find_first_of("0123456789")`: index of the first
decimal digit. -/
def findFirstDigit (s : List Char) : Option Nat :=
  s.findIdx? (·.isDigit)

/-- ASCII `toupper` (C locale): only `'a'..'z'` are changed. -/
def upChar (c : Char) : Char :=
  if 'a' ≤ c ∧ c ≤ 'z' then Char.ofNat (c.toNat - 32) else c

/-- Uppercase an entire char list (the `std::toupper` loops in the source). -/
def upStr (s : List Char) : List Char :=
  s.map upChar

/-- Decimal value of the leading digit run of `s` (the model of `atoi`
applied at a position that holds a digit: it stops at the first
non-digit). -/
def digitRunValue (s : List Char) : Nat :=
  (s.takeWhile (·.isDigit)).foldl (fun a c => a * 10 + (c.toNat - 48)) 0

/-! ### Format detection (`LOGFile::DetectLogFormat`) -/

/-- Sample size used by the detector (`4096` in `DetectLogFormat`). -/
def sampleSize : Nat := 4096

/-- `DetectLogFormat` from `LOGFile.cpp`, lines 99–174: substring tests over
the first 4096 bytes, evaluated in fixed order, first match wins. -/
def DetectLogFormat (content : List Char) : LogFormat :=
  let sample := content.take sampleSize
  if containsSub sample (" - - [".data) ∧
      (containsSub sample ("\" 200 ".data) ∨
       containsSub sample ("\" 404 ".data) ∨
       containsSub sample ("\" 500 ".data) ∨
       containsSub sample ("GET ".data) ∨
       containsSub sample ("POST ".data)) then
    .Apache
  else if containsSub sample ("[error]".data) ∨
      containsSub sample ("[warn]".data) ∨
      containsSub sample ("[notice]".data) ∨
      containsSub sample ("[crit]".data) then
    .ApacheError
  else if (containsSub sample ("Jan ".data) ∨
      containsSub sample ("Feb ".data) ∨
      containsSub sample ("Mar ".data) ∨
      containsSub sample ("Apr ".data) ∨
      containsSub sample ("May ".data) ∨
      containsSub sample ("Jun ".data) ∨
      containsSub sample ("Jul ".data) ∨
      containsSub sample ("Aug ".data) ∨
      containsSub sample ("Sep ".data) ∨
      containsSub sample ("Oct ".data) ∨
      containsSub sample ("Nov ".data) ∨
      containsSub sample ("Dec ".data)) ∧
      containsSub sample ("]: ".data) then
    .Syslog
  else if (containsSub sample (" INFO ".data) ∨
      containsSub sample (" DEBUG ".data) ∨
      containsSub sample (" ERROR ".data) ∨
      containsSub sample (" WARN ".data) ∨
      containsSub sample ("[INFO]".data) ∨
      containsSub sample ("[DEBUG]".data) ∨
      containsSub sample ("[ERROR]".data) ∨
      containsSub sample ("[WARN]".data)) ∧
      containsSub sample (" - ".data) then
    .Log4j
  else if containsSub sample ("\x7b\"".data) ∧
      (containsSub sample ("\"timestamp\"".data) ∨
       containsSub sample ("\"level\"".data) ∨
       containsSub sample ("\"message\"".data)) then
    .JSON
  else
    .Custom

/-- Rule 1 of the detector: the WebAccess (Apache access log) signature. -/
abbrev webAccessRule (sample : List Char) : Prop :=
  containsSub sample (" - - [".data) ∧
    (containsSub sample ("\" 200 ".data) ∨
     containsSub sample ("\" 404 ".data) ∨
     containsSub sample ("\" 500 ".data) ∨
     containsSub sample ("GET ".data) ∨
     containsSub sample ("POST ".data))

/-- Rule 2 of the detector: the WebError (Apache error log) signature. -/
abbrev webErrorRule (sample : List Char) : Prop :=
  containsSub sample ("[error]".data) ∨
    containsSub sample ("[warn]".data) ∨
    containsSub sample ("[notice]".data) ∨
    containsSub sample ("[crit]".data)

/-- Rule 3 of the detector: the Syslog signature. -/
abbrev syslogRule (sample : List Char) : Prop :=
  (containsSub sample ("Jan ".data) ∨
   containsSub sample ("Feb ".data) ∨
   containsSub sample ("Mar ".data) ∨
   containsSub sample ("Apr ".data) ∨
   containsSub sample ("May ".data) ∨
   containsSub sample ("Jun ".data) ∨
   containsSub sample ("Jul ".data) ∨
   containsSub sample ("Aug ".data) ∨
   containsSub sample ("Sep ".data) ∨
   containsSub sample ("Oct ".data) ∨
   containsSub sample ("Nov ".data) ∨
   containsSub sample ("Dec ".data)) ∧
    containsSub sample ("]: ".data)

/-- Rule 4 of the detector: the StructuredFramework (Log4j) signature. -/
abbrev log4jRule (sample : List Char) : Prop :=
  (containsSub sample (" INFO ".data) ∨
   containsSub sample (" DEBUG ".data) ∨
   containsSub sample (" ERROR ".data) ∨
   containsSub sample (" WARN ".data) ∨
   containsSub sample ("[INFO]".data) ∨
   containsSub sample ("[DEBUG]".data) ∨
   containsSub sample ("[ERROR]".data) ∨
   containsSub sample ("[WARN]".data)) ∧
    containsSub sample (" - ".data)

/-- Rule 5 of the detector: the JSON signature. -/
abbrev jsonRule (sample : List Char) : Prop :=
  containsSub sample ("\x7b\"".data) ∧
    (containsSub sample ("\"timestamp\"".data) ∨
     containsSub sample ("\"level\"".data) ∨
     containsSub sample ("\"message\"".data))

/-! ### `LOGFile::ParseLogLevel` -/

/-- `ParseLogLevel` from `LOGFile.cpp`, lines 176–200: uppercase the token
and match it against the fixed alias table. -/
def ParseLogLevel (levelStr : List Char) : LogLevel :=
  let upper := upStr levelStr
  if upper = "TRACE".data ∨ upper = "TRC".data then .Trace
  else if upper = "DEBUG".data ∨ upper = "DBG".data ∨ upper = "DEBU".data then .Debug
  else if upper = "INFO".data ∨ upper = "INF".data ∨ upper = "INFORMATION".data ∨
      upper = "NOTICE".data then .Info
  else if upper = "WARN".data ∨ upper = "WARNING".data ∨ upper = "WRN".data then .Warning
  else if upper = "ERROR".data ∨ upper = "ERR".data ∨ upper = "ERRO".data then .Error
  else if upper = "FATAL".data ∨ upper = "FTL".data ∨ upper = "CRIT".data ∨
      upper = "CRITICAL".data then .Fatal
  else .Unknown

/-! ### Line splitting (the shared per-line loop of all four parsers)

Each parser runs the same loop: find the next `'\n'` (or end of content),
strip one trailing `'\r'` from the yielded slice, skip empty lines (they
still advance the line counter), and advance `pos` past the newline. -/

/-- One parser step: the raw text of the current line (up to but excluding
the next `'\n'`), before `'\r'` trimming. -/
def rawLine (rest : List Char) : List Char :=
  rest.takeWhile (· ≠ '\n')

/-- Trailing-`'\r'` trim applied to each raw line. -/
def trimCR (l : List Char) : List Char :=
  if l ≠ [] ∧ l.getLast? = some '\r' then l.dropLast else l

/-- The shared line loop: apply the per-line parser `f lineStart lineEnd
lineNumber line` to every non-empty (post-trim) line.  `pos` is the byte
offset of `rest` inside the whole content and `num` the 1-based line
counter. -/
def parseLinesAux (f : Nat → Nat → Nat → List Char → LogEntry) :
    Nat → List Char → Nat → Nat → List LogEntry
  | 0, _, _, _ => []
  | fuel + 1, rest, pos, num =>
    match rest with
    | [] => []
    | _ :: _ =>
      let raw := rawLine rest
      let lineEnd := pos + raw.length
      let line := trimCR raw
      let entries :=
        parseLinesAux f fuel (rest.drop (raw.length + 1)) (lineEnd + 1) (num + 1)
      if line = [] then entries else f pos lineEnd num line :: entries

/-- Entry point of the shared loop.  Every iteration consumes at least one
character, so `content.length` steps of fuel are exactly enough for the
`while (pos < content.size())` loop. -/
def parseLines (f : Nat → Nat → Nat → List Char → LogEntry) (content : List Char) :
    List LogEntry :=
  parseLinesAux f content.length content 0 1

/-! ### `LOGFile::ParseApacheLog` (the WebAccess parser) -/

/-- The timestamp slice `line.substr(tsStart + 1, tsEnd - tsStart - 1)`.
`tsEnd - tsStart - 1` is a `size_t` subtraction: when `tsEnd < tsStart`
it wraps to a huge count and `substr` clamps it to the rest of the
string. -/
def bracketSlice (line : List Char) (tsStart tsEnd : Nat) : List Char :=
  if tsStart < tsEnd then (line.drop (tsStart + 1)).take (tsEnd - tsStart - 1)
  else line.drop (tsStart + 1)

/-- The body of `ParseApacheLog`'s loop (`LOGFile.cpp`, lines 222–287),
applied to one non-empty line. -/
def apacheLine (lineStart lineEnd lineNumber : Nat) (line : List Char) : LogEntry :=
  let e : LogEntry :=
    { lineStart := lineStart, lineEnd := lineEnd, lineNumber := lineNumber }
  match findChar line ' ' with
  | none => e
  | some ipEnd =>
    let e := { e with ipAddress := line.take ipEnd }
    let e :=
      match findChar line '[', findChar line ']' with
      | some tsStart, some tsEnd =>
        { e with timestamp := bracketSlice line tsStart tsEnd }
      | _, _ => e
    let e :=
      match findChar line '"' with
      | none => e
      | some reqStart =>
        match findCharFrom line '"' (reqStart + 1) with
        | none => e
        | some reqEnd =>
          let request := (line.drop (reqStart + 1)).take (reqEnd - reqStart - 1)
          let e :=
            match findChar request ' ' with
            | none => e
            | some methodEnd =>
              let e := { e with httpMethod := request.take methodEnd }
              match findCharFrom request ' ' (methodEnd + 1) with
              | none => e
              | some urlEnd =>
                { e with url := (request.drop (methodEnd + 1)).take (urlEnd - methodEnd - 1) }
          let afterRequest := line.drop (reqEnd + 1)
          match findFirstDigit afterRequest with
          | none => e
          | some numStart =>
            let status := digitRunValue (afterRequest.drop numStart)
            { e with
              httpStatus := status
              level :=
                if status ≥ 500 then .Error
                else if status ≥ 400 then .Warning
                else .Info }
    { e with message := line }

/-- `ParseApacheLog` over a whole document. -/
def ParseApacheLog (content : List Char) : List LogEntry :=
  parseLines apacheLine content

/-! ### `LOGFile::ParseSyslog` -/

/-- The body of `ParseSyslog`'s loop (`LOGFile.cpp`, lines 315–359),
applied to one non-empty line. -/
def syslogLine (lineStart lineEnd lineNumber : Nat) (line : List Char) : LogEntry :=
  let e : LogEntry :=
    { lineStart := lineStart, lineEnd := lineEnd, lineNumber := lineNumber
      message := line }
  let e :=
    if line.length ≥ 15 then { e with timestamp := line.take 15 } else e
  let e :=
    match findSubstr ": ".data line with
    | some colonPos =>
      if colonPos > 15 then
        let sourcePart := (line.drop 16).take (colonPos - 16)
        let e :=
          match findChar sourcePart ' ' with
          | some spacePos => { e with source := sourcePart.drop (spacePos + 1) }
          | none => e
        { e with message := line.drop (colonPos + 2) }
      else e
    | none => e
  let upperMsg := upStr e.message
  { e with
    level :=
      if containsSub upperMsg "ERROR".data ∨ containsSub upperMsg "FAIL".data then .Error
      else if containsSub upperMsg "WARN".data then .Warning
      else if containsSub upperMsg "DEBUG".data then .Debug
      else .Info }

/-- `ParseSyslog` over a whole document. -/
def ParseSyslog (content : List Char) : List LogEntry :=
  parseLines syslogLine content

/-! ### `LOGFile::ParseLog4j` (the StructuredFramework parser) -/

/-- Indexing `line[i]` guarded by a length check in the source; the default
is never reached at guarded call sites. -/
def charAt (s : List Char) (i : Nat) : Char :=
  s.getD i (Char.ofNat 0)

/-- The `while (sourceStart < msgStart && (remaining[sourceStart] == ' ' ||
remaining[sourceStart] == '[')) sourceStart++;` loop: it advances `start`
over exactly the maximal run of `' '`/`'['` characters inside the
in-bounds window `[start, stop)`. -/
def advanceWhile (s : List Char) (stop start : Nat) : Nat :=
  start + (((s.drop start).take (stop - start)).takeWhile fun c => c = ' ' ∨ c = '[').length

/-- The `while (sourceEnd > sourceStart && (remaining[sourceEnd-1] == ' ' ||
remaining[sourceEnd-1] == ']')) sourceEnd--;` loop: it retreats `e` over
exactly the maximal run of trailing `' '`/`']'` characters of the
in-bounds window `[lo, e)`. -/
def retreatWhile (s : List Char) (lo e : Nat) : Nat :=
  e - ((((s.drop lo).take (e - lo)).reverse).takeWhile fun c => c = ' ' ∨ c = ']').length

/-- The fixed keyword array `levels` of `ParseLog4j`, in source order. -/
def log4jLevels : List (List Char) :=
  ["TRACE".data, "DEBUG".data, "INFO".data, "WARN".data, "WARNING".data,
   "ERROR".data, "FATAL".data, "CRITICAL".data]

/-- The `for (const char* lvl : levels)` scan: the first keyword (in array
order) that occurs in `remaining` at an offset `< 20`, with that offset. -/
def findLevelKeyword : List (List Char) → List Char → Option (List Char × Nat)
  | [], _ => none
  | lvl :: rest, remaining =>
    match findSubstr lvl remaining with
    | some p => if p < 20 then some (lvl, p) else findLevelKeyword rest remaining
    | none => findLevelKeyword rest remaining

/-- The body of `ParseLog4j`'s loop (`LOGFile.cpp`, lines 389–463),
applied to one non-empty line. -/
def log4jLine (lineStart lineEnd lineNumber : Nat) (line : List Char) : LogEntry :=
  let e : LogEntry :=
    { lineStart := lineStart, lineEnd := lineEnd, lineNumber := lineNumber
      level := .Unknown }
  let timestampEnd :=
    if line.length ≥ 19 ∧ (charAt line 4 = '-' ∨ charAt line 4 = '/') ∧
        (charAt line 7 = '-' ∨ charAt line 7 = '/') then
      if line.length > 23 ∧ (charAt line 19 = '.' ∨ charAt line 19 = ',') then 23 else 19
    else 0
  let e := if timestampEnd > 0 then { e with timestamp := line.take timestampEnd } else e
  let remaining := if timestampEnd > 0 then line.drop timestampEnd else line
  let e :=
    match findLevelKeyword log4jLevels remaining with
    | none => e
    | some (lvl, lvlPos) =>
      let e := { e with level := ParseLogLevel lvl }
      match findSubstrFrom " - ".data remaining lvlPos with
      | some msgStart =>
        let sourceStart := advanceWhile remaining msgStart (lvlPos + lvl.length)
        let sourceEnd := retreatWhile remaining sourceStart msgStart
        let e :=
          if sourceEnd > sourceStart then
            { e with source := (remaining.drop sourceStart).take (sourceEnd - sourceStart) }
          else e
        { e with message := remaining.drop (msgStart + 3) }
      | none => { e with message := remaining.drop (lvlPos + lvl.length) }
  if e.message.isEmpty then { e with message := line } else e

/-- `ParseLog4j` over a whole document. -/
def ParseLog4j (content : List Char) : List LogEntry :=
  parseLines log4jLine content

/-! ### `LOGFile::ParseGenericLog` -/

/-- The body of `ParseGenericLog`'s loop (`LOGFile.cpp`, lines 491–549),
applied to one non-empty line. -/
def genericLine (lineStart lineEnd lineNumber : Nat) (line : List Char) : LogEntry :=
  let e : LogEntry :=
    { lineStart := lineStart, lineEnd := lineEnd, lineNumber := lineNumber
      message := line, level := .Unknown }
  let e :=
    if charAt line 0 = '[' then
      match findChar line ']' with
      | some bracketEnd => { e with timestamp := (line.drop 1).take (bracketEnd - 1) }
      | none => e
    else if line.length ≥ 10 ∧ charAt line 4 = '-' ∧ charAt line 7 = '-' then
      let tsEnd :=
        if line.length > 19 ∧ charAt line 10 = ' ' ∧ charAt line 13 = ':' then
          if line.length > 23 ∧ (charAt line 19 = '.' ∨ charAt line 19 = ',') then 23 else 19
        else 10
      { e with timestamp := line.take tsEnd }
    else e
  let upperLine := upStr line
  { e with
    level :=
      if containsSub upperLine "FATAL".data ∨ containsSub upperLine "CRITICAL".data then
        .Fatal
      else if containsSub upperLine "ERROR".data ∨ containsSub upperLine "EXCEPTION".data ∨
          containsSub upperLine "FAIL".data then
        .Error
      else if containsSub upperLine "WARN".data then .Warning
      else if containsSub upperLine "DEBUG".data then .Debug
      else if containsSub upperLine "TRACE".data then .Trace
      else if containsSub upperLine "INFO".data then .Info
      else .Unknown }

/-- `ParseGenericLog` over a whole document. -/
def ParseGenericLog (content : List Char) : List LogEntry :=
  parseLines genericLine content

/-! ### `LOGFile::UpdateStatistics` -/

/-- One iteration of the statistics loop: the `switch (entry.level)` (Fatal
and Critical share `fatalCount`, the `default` arm counts `Unknown`)
followed by the HTTP status `if`-chain. -/
def bucketStep (s : LogStatistics) (e : LogEntry) : LogStatistics :=
  let s :=
    match e.level with
    | .Trace => { s with traceCount := s.traceCount + 1 }
    | .Debug => { s with debugCount := s.debugCount + 1 }
    | .Info => { s with infoCount := s.infoCount + 1 }
    | .Warning => { s with warningCount := s.warningCount + 1 }
    | .Error => { s with errorCount := s.errorCount + 1 }
    | .Fatal => { s with fatalCount := s.fatalCount + 1 }
    | .Critical => { s with fatalCount := s.fatalCount + 1 }
    | .Unknown => { s with unknownCount := s.unknownCount + 1 }
  if 200 ≤ e.httpStatus ∧ e.httpStatus < 300 then
    { s with http2xxCount := s.http2xxCount + 1 }
  else if 300 ≤ e.httpStatus ∧ e.httpStatus < 400 then
    { s with http3xxCount := s.http3xxCount + 1 }
  else if 400 ≤ e.httpStatus ∧ e.httpStatus < 500 then
    { s with http4xxCount := s.http4xxCount + 1 }
  else if 500 ≤ e.httpStatus then
    { s with http5xxCount := s.http5xxCount + 1 }
  else s

/-- First non-empty timestamp of the record list (empty when none). -/
def firstNonemptyTs (es : List LogEntry) : List Char :=
  match es.find? (fun e => e.timestamp ≠ []) with
  | some e => e.timestamp
  | none => []

/-- `UpdateStatistics` from `LOGFile.cpp`, lines 559–623: reset, set
`totalLines`, one pass of bucket increments, then the forward/backward
timestamp scans. -/
def UpdateStatistics (es : List LogEntry) : LogStatistics :=
  let s0 : LogStatistics := { totalLines := es.length }
  let s1 := es.foldl bucketStep s0
  { s1 with
    firstTimestamp := firstNonemptyTs es
    lastTimestamp := firstNonemptyTs es.reverse }

/-! ### The session object and `LOGFile::Update` -/

/-- The derived state owned by one `LOGFile` session: detected format,
statistics and the entries vector.  A fresh session (the constructor)
has `detectedFormat = Unknown`, default statistics and no entries. -/
structure LogState where
  detectedFormat : LogFormat := .Unknown
  stats : LogStatistics := {}
  entries : List LogEntry := []
deriving DecidableEq, Repr

/-- State of a freshly constructed session. -/
def freshState : LogState := {}

/-- `MAX_PARSE_SIZE` from `Update` (50 MiB). -/
def MAX_PARSE_SIZE : Nat := 50 * 1024 * 1024

/-- The `switch (detectedFormat)` dispatch in `Update`: Apache, Syslog and
Log4j have dedicated parsers, every other format falls back to the
generic parser. -/
def dispatchParse (fmt : LogFormat) (content : List Char) : List LogEntry :=
  match fmt with
  | .Apache => ParseApacheLog content
  | .Syslog => ParseSyslog content
  | .Log4j => ParseLog4j content
  | _ => ParseGenericLog content

/-- `LOGFile::Update` (`LOGFile.cpp`, lines 55–97).  `src = none` models an
invalid object reference (`CHECK(obj.IsValid(), false, ...)`); otherwise
`src = some bytes` is the document.  Both failure returns happen before
`detectedFormat` is reassigned and before `entries.clear()`, so the prior
state is returned unchanged on failure. -/
def Update (src : Option (List Char)) (s : LogState) : Bool × LogState :=
  match src with
  | none => (false, s)
  | some bytes =>
    if bytes.length = 0 then (false, s)
    else
      let content := bytes.take MAX_PARSE_SIZE
      let fmt := DetectLogFormat content
      let es := dispatchParse fmt content
      (true, { detectedFormat := fmt, entries := es, stats := UpdateStatistics es })

/-! ### The tokenizer (`LOGFile::AnalyzeText`) -/

/-- The token kinds `AnalyzeText` can emit (`TokenType` constants used by
the tokenizer in `log.hpp`). -/
inductive TokenKind where
  | Timestamp
  | LevelError
  | LevelWarning
  | LevelInfo
  | LevelDebug
  | Message
  | IPAddress
  | HTTPMethod
  | Number
  | Bracket
  | String
  | Separator
deriving DecidableEq, Repr

/-- One emitted span: `tokens.Add(kind, start, stop, color)` (the color is
presentation-only and not modelled). -/
structure Token where
  kind : TokenKind
  start : Nat
  stop : Nat
deriving DecidableEq, Repr

/-- Space or tab (skipped, never emitted). -/
def isWsC (c : Char) : Bool := c = ' ' ∨ c = '\t'

/-- `'\n'` or `'\r'` (consumed, never emitted). -/
def isNlC (c : Char) : Bool := c = '\n' ∨ c = '\r'

/-- The tokenizer's bracket set. -/
def isBracketC (c : Char) : Bool :=
  c = '[' ∨ c = ']' ∨ c = '(' ∨ c = ')' ∨ c = '{' ∨ c = '}' ∨ c = '<' ∨ c = '>'

/-- The tokenizer's quote set. -/
def isQuoteC (c : Char) : Bool := c = '"' ∨ c = '\''

/-- Characters consumed by the numeric-run loop (after an opening digit). -/
def isNumRunC (c : Char) : Bool :=
  c.isDigit ∨ c = '.' ∨ c = ':' ∨ c = '-' ∨ c = '/' ∨ c = 'T' ∨ c = 'Z' ∨ c = '+'

/-- Characters that open a word run (`A`–`Z`, `a`–`z`, `_`). -/
def isWordStartC (c : Char) : Bool :=
  ('A' ≤ c ∧ c ≤ 'Z') ∨ ('a' ≤ c ∧ c ≤ 'z') ∨ c = '_'

/-- Characters consumed by the word-run loop. -/
def isWordC (c : Char) : Bool :=
  ('A' ≤ c ∧ c ≤ 'Z') ∨ ('a' ≤ c ∧ c ≤ 'z') ∨ c.isDigit ∨ c = '_' ∨ c = '-' ∨ c = '.'

/-- The quoted-string scan of `AnalyzeText`, applied to the text after the
opening quote `q`: returns the number of characters consumed, counting
the closing quote when reached; `\` protects the following character;
a bare newline stops the scan without being consumed. -/
def quoteScan (q : Char) : List Char → Nat
  | [] => 0
  | c :: t =>
    if c = q then 1
    else if c = '\n' ∨ c = '\r' then 0
    else if c = '\\' then
      match t with
      | [] => 1
      | _ :: t2 => 2 + quoteScan q t2
    else 1 + quoteScan q t

/-- Classification of a completed numeric run (`dotCount == 3` with no
colon and no dash is an IP address; any dash or colon otherwise makes a
timestamp). -/
def numKind (run : List Char) : TokenKind :=
  if run.count '.' = 3 ∧ ¬ run.contains ':' ∧ ¬ run.contains '-' then .IPAddress
  else if run.contains '-' ∨ run.contains ':' then .Timestamp
  else .Number

/-- Classification of a completed word run: drop non-ASCII characters,
uppercase, then the fixed keyword chain of `AnalyzeText` (level keywords
first, then HTTP methods, then the literal `HTTP`, else `Message`). -/
def classifyWord (run : List Char) : TokenKind :=
  let wordUpper := (run.filter (fun c => c.toNat < 128)).map upChar
  if wordUpper = "ERROR".data ∨ wordUpper = "ERR".data ∨ wordUpper = "ERRO".data then
    .LevelError
  else if wordUpper = "WARN".data ∨ wordUpper = "WARNING".data ∨ wordUpper = "WRN".data then
    .LevelWarning
  else if wordUpper = "INFO".data ∨ wordUpper = "INF".data ∨
      wordUpper = "INFORMATION".data then
    .LevelInfo
  else if wordUpper = "DEBUG".data ∨ wordUpper = "DBG".data ∨ wordUpper = "DEBU".data then
    .LevelDebug
  else if wordUpper = "TRACE".data ∨ wordUpper = "TRC".data then
    .LevelDebug
  else if wordUpper = "FATAL".data ∨ wordUpper = "FTL".data ∨
      wordUpper = "CRITICAL".data ∨ wordUpper = "CRIT".data then
    .LevelError
  else if wordUpper = "GET".data ∨ wordUpper = "POST".data ∨ wordUpper = "PUT".data ∨
      wordUpper = "DELETE".data ∨ wordUpper = "PATCH".data ∨ wordUpper = "HEAD".data ∨
      wordUpper = "OPTIONS".data ∨ wordUpper = "CONNECT".data ∨
      wordUpper = "TRACE".data then
    .HTTPMethod
  else if wordUpper = "HTTP".data then
    .HTTPMethod
  else
    .Message

/-- In the newline branch, `pos++` consumes the line-ending character and a
second `pos++` consumes its partner when `\r\n` or `\n\r` is paired:
this is the extra amount consumed beyond the first character. -/
def nlExtra (c : Char) (t : List Char) : Nat :=
  match t.head? with
  | some d => if (c = '\r' ∧ d = '\n') ∨ (c = '\n' ∧ d = '\r') then 1 else 0
  | none => 0

/-- The main loop of `AnalyzeText` (`LOGFile.cpp`, lines 701–904).  `rest`
is the unprocessed suffix and `pos` its offset in the whole text.  The
C++ loop skips whitespace a run at a time; consuming it one character at
a time emits the same tokens. -/
def analyzeFrom : Nat → List Char → Nat → List Token
  | 0, _, _ => []
  | fuel + 1, rest, pos =>
    match rest with
    | [] => []
    | c :: t =>
      if isWsC c then analyzeFrom fuel t (pos + 1)
      else if isNlC c then
        analyzeFrom fuel (t.drop (nlExtra c t)) (pos + 1 + nlExtra c t)
      else if isBracketC c then
        ⟨.Bracket, pos, pos + 1⟩ :: analyzeFrom fuel t (pos + 1)
      else if isQuoteC c then
        let n := 1 + quoteScan c t
        ⟨.String, pos, pos + n⟩ :: analyzeFrom fuel (t.drop (quoteScan c t)) (pos + n)
      else if c.isDigit then
        let run := c :: t.takeWhile isNumRunC
        ⟨numKind run, pos, pos + run.length⟩ ::
          analyzeFrom fuel (t.drop (t.takeWhile isNumRunC).length) (pos + run.length)
      else if isWordStartC c then
        let run := c :: t.takeWhile isWordC
        ⟨classifyWord run, pos, pos + run.length⟩ ::
          analyzeFrom fuel (t.drop (t.takeWhile isWordC).length) (pos + run.length)
      else
        ⟨.Separator, pos, pos + 1⟩ :: analyzeFrom fuel t (pos + 1)

/-- `AnalyzeText`: tokenize the whole text.  Every loop iteration consumes
at least one character, so `text.length` steps of fuel are exactly enough
for the `while (pos < len)` loop. -/
def AnalyzeText (text : List Char) : List Token :=
  analyzeFrom text.length text 0


/-! ## Claim theorems -/

/-- Scenario A input line from the spec. -/
def scenarioALine : List Char :=
  "127.0.0.1 - - [10/Oct/2023:13:55:36 +0000] \"GET /index.html HTTP/1.1\" 200 612".data

/-- **C2** — `DetectLogFormat` inspects only the first 4096 bytes of the
document, evaluates the five format rules in fixed priority order with
first match winning (in particular a sample matching both the WebAccess
rule and the StructuredFramework rule is classified `Apache`), and a
sample matching no rule is classified `Custom`. -/
theorem DetectLogFormat_priority (content : List Char) :
    (∀ c₂ : List Char, content.take sampleSize = c₂.take sampleSize →
        DetectLogFormat content = DetectLogFormat c₂) ∧
    (webAccessRule (content.take sampleSize) → DetectLogFormat content = .Apache) ∧
    (¬ webAccessRule (content.take sampleSize) →
      webErrorRule (content.take sampleSize) →
      DetectLogFormat content = .ApacheError) ∧
    (¬ webAccessRule (content.take sampleSize) →
      ¬ webErrorRule (content.take sampleSize) →
      syslogRule (content.take sampleSize) →
      DetectLogFormat content = .Syslog) ∧
    (¬ webAccessRule (content.take sampleSize) →
      ¬ webErrorRule (content.take sampleSize) →
      ¬ syslogRule (content.take sampleSize) →
      log4jRule (content.take sampleSize) →
      DetectLogFormat content = .Log4j) ∧
    (¬ webAccessRule (content.take sampleSize) →
      ¬ webErrorRule (content.take sampleSize) →
      ¬ syslogRule (content.take sampleSize) →
      ¬ log4jRule (content.take sampleSize) →
      jsonRule (content.take sampleSize) →
      DetectLogFormat content = .JSON) ∧
    (¬ webAccessRule (content.take sampleSize) →
      ¬ webErrorRule (content.take sampleSize) →
      ¬ syslogRule (content.take sampleSize) →
      ¬ log4jRule (content.take sampleSize) →
      ¬ jsonRule (content.take sampleSize) →
      DetectLogFormat content = .Custom) ∧
    (webAccessRule (content.take sampleSize) → log4jRule (content.take sampleSize) →
      DetectLogFormat content = .Apache) := by
  refine ⟨?_, ?_, ?_, ?_, ?_, ?_, ?_, ?_⟩
  · intro c₂ h
    unfold DetectLogFormat
    rw [h]
  · intro h1
    unfold DetectLogFormat
    rw [if_pos h1]
  · intro h1 h2
    unfold DetectLogFormat
    rw [if_neg h1, if_pos h2]
  · intro h1 h2 h3
    unfold DetectLogFormat
    rw [if_neg h1, if_neg h2, if_pos h3]
  · intro h1 h2 h3 h4
    unfold DetectLogFormat
    rw [if_neg h1, if_neg h2, if_neg h3, if_pos h4]
  · intro h1 h2 h3 h4 h5
    unfold DetectLogFormat
    rw [if_neg h1, if_neg h2, if_neg h3, if_neg h4, if_pos h5]
  · intro h1 h2 h3 h4 h5
    unfold DetectLogFormat
    rw [if_neg h1, if_neg h2, if_neg h3, if_neg h4, if_neg h5]
  · intro h1 _
    unfold DetectLogFormat
    rw [if_pos h1]

/-- Witness for `DetectLogFormat_priority`: a concrete sample matching both
the WebAccess rule and the StructuredFramework rule is classified
`Apache`. -/
theorem DetectLogFormat_priority_witness :
    webAccessRule (("a - - [b] GET  INFO  - ".data).take sampleSize) ∧
    log4jRule (("a - - [b] GET  INFO  - ".data).take sampleSize) ∧
    DetectLogFormat ("a - - [b] GET  INFO  - ".data) = .Apache :=
  ⟨by decide, by decide,
    (DetectLogFormat_priority ("a - - [b] GET  INFO  - ".data)).2.2.2.2.2.2.2
      (by decide) (by decide)⟩

/-- **C4** — Scenario A: on the single WebAccess line
`127.0.0.1 - - [10/Oct/2023:13:55:36 +0000] "GET /index.html HTTP/1.1" 200 612`
the detector returns `Apache` (WebAccess) and the produced record has
`ipAddress = "127.0.0.1"`, `timestamp = "10/Oct/2023:13:55:36 +0000"`,
`httpMethod = "GET"`, `url = "/index.html"`, `httpStatus = 200` and
`level = Info`. -/
theorem scenarioA_correct :
    (Update (some scenarioALine) freshState).1 = true ∧
    (Update (some scenarioALine) freshState).2.detectedFormat = .Apache ∧
    (Update (some scenarioALine) freshState).2.entries.map LogEntry.ipAddress =
      ["127.0.0.1".data] ∧
    (Update (some scenarioALine) freshState).2.entries.map LogEntry.timestamp =
      ["10/Oct/2023:13:55:36 +0000".data] ∧
    (Update (some scenarioALine) freshState).2.entries.map LogEntry.httpMethod =
      ["GET".data] ∧
    (Update (some scenarioALine) freshState).2.entries.map LogEntry.url =
      ["/index.html".data] ∧
    (Update (some scenarioALine) freshState).2.entries.map LogEntry.httpStatus = [200] ∧
    (Update (some scenarioALine) freshState).2.entries.map LogEntry.level = [.Info] := by
  decide

/-- **C9** — `Update` fails exactly when the byte source is invalid
(`src = none`) or holds zero bytes; on a fresh session a failed refresh
leaves no records and all-zero statistics; for every valid non-empty
source it returns success after completing detection, parsing and
statistics. -/
theorem Update_success_failure (src : Option (List Char)) (s : LogState) :
    ((Update src s).1 = false ↔ src = none ∨ src = some []) ∧
    (∀ bytes : List Char, src = some bytes → bytes ≠ [] →
        (Update src s).1 = true ∧
        (Update src s).2.detectedFormat = DetectLogFormat (bytes.take MAX_PARSE_SIZE) ∧
        (Update src s).2.entries =
          dispatchParse (DetectLogFormat (bytes.take MAX_PARSE_SIZE))
            (bytes.take MAX_PARSE_SIZE) ∧
        (Update src s).2.stats = UpdateStatistics ((Update src s).2.entries)) ∧
    ((Update src freshState).1 = false →
        (Update src freshState).2.entries = [] ∧
        (Update src freshState).2.stats = ({} : LogStatistics)) := by
  match src with
  | none =>
    refine ⟨by simp [Update], ?_, ?_⟩
    · intro bytes h
      exact absurd h (by simp)
    · intro _
      exact ⟨rfl, rfl⟩
  | some bytes =>
    by_cases hb : bytes = []
    · subst hb
      refine ⟨by simp [Update], ?_, ?_⟩
      · intro bytes' h h'
        exact absurd (Option.some_injective _ h).symm h'
      · intro _
        exact ⟨rfl, rfl⟩
    · have hlen : bytes.length ≠ 0 := fun h => hb (List.length_eq_zero.mp h)
      refine ⟨by simp [Update, hlen, hb], ?_, ?_⟩
      · intro bytes' h h'
        have : bytes' = bytes := (Option.some_injective _ h).symm
        subst this
        refine ⟨by simp [Update, hlen], by simp [Update, hlen], by simp [Update, hlen], ?_⟩
        simp [Update, hlen]
      · intro hfail
        have : (Update (some bytes) freshState).1 = true := by simp [Update, hlen]
        rw [this] at hfail
        exact absurd hfail (by simp)

/-- Witness for `Update_success_failure` at a concrete non-empty source. -/
theorem Update_success_failure_witness :
    (Update (some scenarioALine) freshState).1 = true ∧
    (Update (some scenarioALine) freshState).2.detectedFormat =
      DetectLogFormat (scenarioALine.take MAX_PARSE_SIZE) :=
  ⟨((Update_success_failure (some scenarioALine) freshState).2.1 scenarioALine rfl
      (by decide)).1,
   ((Update_success_failure (some scenarioALine) freshState).2.1 scenarioALine rfl
      (by decide)).2.1⟩

/-- **C10** — a failed `Update` (invalid object reference or zero-byte
source) is atomic: the previously derived state (entries, statistics and
detected format) is returned unchanged, because both failure returns
precede re-detection and `entries.clear()`. -/
theorem Update_failure_atomic (src : Option (List Char)) (s : LogState)
    (h : src = none ∨ src = some []) : (Update src s).2 = s := by
  rcases h with h | h <;> subst h <;> simp [Update]

/-- Witness for `Update_failure_atomic`: a zero-byte source on an arbitrary
non-fresh state. -/
theorem Update_failure_atomic_witness :
    (Update (some []) { detectedFormat := .Syslog }).2 =
      { detectedFormat := .Syslog } :=
  Update_failure_atomic (some []) { detectedFormat := .Syslog } (Or.inr rfl)

/-! ### Statistics lemmas (C3) -/

/-- Total of the seven severity buckets. -/
def sevTotal (s : LogStatistics) : Nat :=
  s.traceCount + s.debugCount + s.infoCount + s.warningCount + s.errorCount +
    s.fatalCount + s.unknownCount

lemma bucketStep_sevTotal (s : LogStatistics) (e : LogEntry) :
    sevTotal (bucketStep s e) = sevTotal s + 1 := by
  unfold bucketStep sevTotal
  cases e.level <;> split_ifs <;> simp
  all_goals omega

lemma bucketStep_totalLines (s : LogStatistics) (e : LogEntry) :
    (bucketStep s e).totalLines = s.totalLines := by
  unfold bucketStep
  cases e.level <;> split_ifs <;> simp

lemma bucketStep_fatal (s : LogStatistics) (e : LogEntry) :
    (bucketStep s e).fatalCount =
      s.fatalCount + (if e.level = .Fatal ∨ e.level = .Critical then 1 else 0) := by
  unfold bucketStep
  cases e.level <;> split_ifs <;> simp_all

lemma bucketStep_http2xx (s : LogStatistics) (e : LogEntry) :
    (bucketStep s e).http2xxCount =
      s.http2xxCount + (if 200 ≤ e.httpStatus ∧ e.httpStatus < 300 then 1 else 0) := by
  unfold bucketStep
  cases e.level <;> split_ifs <;> simp

lemma bucketStep_http3xx (s : LogStatistics) (e : LogEntry) :
    (bucketStep s e).http3xxCount =
      s.http3xxCount + (if 300 ≤ e.httpStatus ∧ e.httpStatus < 400 then 1 else 0) := by
  unfold bucketStep
  cases e.level <;> split_ifs <;> simp
  all_goals omega

lemma bucketStep_http4xx (s : LogStatistics) (e : LogEntry) :
    (bucketStep s e).http4xxCount =
      s.http4xxCount + (if 400 ≤ e.httpStatus ∧ e.httpStatus < 500 then 1 else 0) := by
  unfold bucketStep
  cases e.level <;> split_ifs <;> simp
  all_goals omega

lemma bucketStep_http5xx (s : LogStatistics) (e : LogEntry) :
    (bucketStep s e).http5xxCount =
      s.http5xxCount + (if 500 ≤ e.httpStatus then 1 else 0) := by
  unfold bucketStep
  cases e.level <;> split_ifs <;> simp
  all_goals omega

lemma foldl_bucketStep_sevTotal (es : List LogEntry) :
    ∀ s0 : LogStatistics, sevTotal (es.foldl bucketStep s0) = sevTotal s0 + es.length := by
  induction es with
  | nil => intro s0; simp
  | cons e es ih =>
    intro s0
    simp only [List.foldl_cons, List.length_cons, ih, bucketStep_sevTotal]
    omega

lemma foldl_bucketStep_totalLines (es : List LogEntry) :
    ∀ s0 : LogStatistics, (es.foldl bucketStep s0).totalLines = s0.totalLines := by
  induction es with
  | nil => intro s0; rfl
  | cons e es ih =>
    intro s0
    simp only [List.foldl_cons, ih, bucketStep_totalLines]

lemma foldl_bucketStep_fatal (es : List LogEntry) :
    ∀ s0 : LogStatistics, (es.foldl bucketStep s0).fatalCount =
      s0.fatalCount + es.countP (fun e => e.level = .Fatal ∨ e.level = .Critical) := by
  induction es with
  | nil => intro s0; simp
  | cons e es ih =>
    intro s0
    simp only [List.foldl_cons, ih, bucketStep_fatal, List.countP_cons,
      decide_eq_true_eq]
    split_ifs with h <;> omega

lemma foldl_bucketStep_http2xx (es : List LogEntry) :
    ∀ s0 : LogStatistics, (es.foldl bucketStep s0).http2xxCount =
      s0.http2xxCount + es.countP (fun e => 200 ≤ e.httpStatus ∧ e.httpStatus < 300) := by
  induction es with
  | nil => intro s0; simp
  | cons e es ih =>
    intro s0
    simp only [List.foldl_cons, ih, bucketStep_http2xx, List.countP_cons,
      decide_eq_true_eq]
    split_ifs with h <;> omega

lemma foldl_bucketStep_http3xx (es : List LogEntry) :
    ∀ s0 : LogStatistics, (es.foldl bucketStep s0).http3xxCount =
      s0.http3xxCount + es.countP (fun e => 300 ≤ e.httpStatus ∧ e.httpStatus < 400) := by
  induction es with
  | nil => intro s0; simp
  | cons e es ih =>
    intro s0
    simp only [List.foldl_cons, ih, bucketStep_http3xx, List.countP_cons,
      decide_eq_true_eq]
    split_ifs with h <;> omega

lemma foldl_bucketStep_http4xx (es : List LogEntry) :
    ∀ s0 : LogStatistics, (es.foldl bucketStep s0).http4xxCount =
      s0.http4xxCount + es.countP (fun e => 400 ≤ e.httpStatus ∧ e.httpStatus < 500) := by
  induction es with
  | nil => intro s0; simp
  | cons e es ih =>
    intro s0
    simp only [List.foldl_cons, ih, bucketStep_http4xx, List.countP_cons,
      decide_eq_true_eq]
    split_ifs with h <;> omega

lemma foldl_bucketStep_http5xx (es : List LogEntry) :
    ∀ s0 : LogStatistics, (es.foldl bucketStep s0).http5xxCount =
      s0.http5xxCount + es.countP (fun e => 500 ≤ e.httpStatus) := by
  induction es with
  | nil => intro s0; simp
  | cons e es ih =>
    intro s0
    simp only [List.foldl_cons, ih, bucketStep_http5xx, List.countP_cons,
      decide_eq_true_eq]
    split_ifs with h <;> omega

lemma countP_http_split (es : List LogEntry) :
    es.countP (fun e => 200 ≤ e.httpStatus ∧ e.httpStatus < 300) +
      es.countP (fun e => 300 ≤ e.httpStatus ∧ e.httpStatus < 400) +
      es.countP (fun e => 400 ≤ e.httpStatus ∧ e.httpStatus < 500) +
      es.countP (fun e => 500 ≤ e.httpStatus) =
      es.countP (fun e => 200 ≤ e.httpStatus) := by
  induction es with
  | nil => simp
  | cons e es ih =>
    simp only [List.countP_cons, decide_eq_true_eq]
    split_ifs <;> omega

lemma Update_some_stats (bytes : List Char) (st : LogState) (hb : bytes ≠ []) :
    (Update (some bytes) st).2.stats =
      UpdateStatistics ((Update (some bytes) st).2.entries) := by
  have hlen : bytes.length ≠ 0 := fun h => hb (List.length_eq_zero.mp h)
  simp [Update, hlen]

/-- **C3** — after every refresh the seven severity buckets sum to
`totalLines`, which is the number of produced records; `Fatal` and
`Critical` records share the fatal bucket; each HTTP-class bucket counts
exactly the records whose `httpStatus` lies in its class, and records
with `httpStatus` below 200 (in particular `httpStatus = 0`) increment
no HTTP bucket (the four buckets together count exactly the records with
`httpStatus ≥ 200`).  The final conjunct ties this to the refresh: on
every successful `Update` the stored statistics are exactly
`UpdateStatistics` of the produced records. -/
theorem UpdateStatistics_invariants (es : List LogEntry) :
    ((UpdateStatistics es).traceCount + (UpdateStatistics es).debugCount +
        (UpdateStatistics es).infoCount + (UpdateStatistics es).warningCount +
        (UpdateStatistics es).errorCount + (UpdateStatistics es).fatalCount +
        (UpdateStatistics es).unknownCount = (UpdateStatistics es).totalLines) ∧
    (UpdateStatistics es).totalLines = es.length ∧
    (UpdateStatistics es).fatalCount =
      es.countP (fun e => e.level = .Fatal ∨ e.level = .Critical) ∧
    (UpdateStatistics es).http2xxCount =
      es.countP (fun e => 200 ≤ e.httpStatus ∧ e.httpStatus < 300) ∧
    (UpdateStatistics es).http3xxCount =
      es.countP (fun e => 300 ≤ e.httpStatus ∧ e.httpStatus < 400) ∧
    (UpdateStatistics es).http4xxCount =
      es.countP (fun e => 400 ≤ e.httpStatus ∧ e.httpStatus < 500) ∧
    (UpdateStatistics es).http5xxCount = es.countP (fun e => 500 ≤ e.httpStatus) ∧
    ((UpdateStatistics es).http2xxCount + (UpdateStatistics es).http3xxCount +
        (UpdateStatistics es).http4xxCount + (UpdateStatistics es).http5xxCount =
        es.countP (fun e => 200 ≤ e.httpStatus)) ∧
    (∀ st : LogState, ∀ bytes : List Char, bytes ≠ [] →
        (Update (some bytes) st).2.stats =
          UpdateStatistics ((Update (some bytes) st).2.entries)) := by
  have h1 : sevTotal (UpdateStatistics es) = es.length := by
    simp only [UpdateStatistics]
    have := foldl_bucketStep_sevTotal es { totalLines := es.length }
    simp only [sevTotal] at this ⊢
    simpa using this
  have h2 : (UpdateStatistics es).totalLines = es.length := by
    simp only [UpdateStatistics]
    simpa using foldl_bucketStep_totalLines es { totalLines := es.length }
  have hf : (UpdateStatistics es).fatalCount =
      es.countP (fun e => e.level = .Fatal ∨ e.level = .Critical) := by
    simp only [UpdateStatistics]
    simpa using foldl_bucketStep_fatal es { totalLines := es.length }
  have a2 : (UpdateStatistics es).http2xxCount =
      es.countP (fun e => 200 ≤ e.httpStatus ∧ e.httpStatus < 300) := by
    simp only [UpdateStatistics]
    simpa using foldl_bucketStep_http2xx es { totalLines := es.length }
  have a3 : (UpdateStatistics es).http3xxCount =
      es.countP (fun e => 300 ≤ e.httpStatus ∧ e.httpStatus < 400) := by
    simp only [UpdateStatistics]
    simpa using foldl_bucketStep_http3xx es { totalLines := es.length }
  have a4 : (UpdateStatistics es).http4xxCount =
      es.countP (fun e => 400 ≤ e.httpStatus ∧ e.httpStatus < 500) := by
    simp only [UpdateStatistics]
    simpa using foldl_bucketStep_http4xx es { totalLines := es.length }
  have a5 : (UpdateStatistics es).http5xxCount =
      es.countP (fun e => 500 ≤ e.httpStatus) := by
    simp only [UpdateStatistics]
    simpa using foldl_bucketStep_http5xx es { totalLines := es.length }
  refine ⟨?_, h2, hf, a2, a3, a4, a5, ?_, ?_⟩
  · simp only [sevTotal] at h1
    omega
  · rw [a2, a3, a4, a5]
    exact countP_http_split es
  · intro st bytes hb
    exact Update_some_stats bytes st hb

/-- Witness for `UpdateStatistics_invariants`: the refresh-composition
conjunct instantiated at a concrete non-empty source. -/
theorem UpdateStatistics_invariants_witness :
    (Update (some "abc".data) freshState).2.stats =
      UpdateStatistics ((Update (some "abc".data) freshState).2.entries) :=
  (UpdateStatistics_invariants []).2.2.2.2.2.2.2.2 freshState "abc".data (by decide)

/-! ### Per-line message invariants (C1) -/

lemma ite_message_ne (e : LogEntry) (line : List Char) (h : line ≠ []) :
    (if e.message.isEmpty then { e with message := line } else e).message ≠ [] := by
  split_ifs with hm
  · simpa using h
  · intro hh
    rw [hh] at hm
    simp at hm

/-- **C1 (amended)** — for every non-empty input line: the Generic parser's
message is the whole raw line; the StructuredFramework parser's message
is never empty (it falls back to the whole line); the WebAccess parser
sets the message to the whole raw line only when the line contains a
space, and leaves it empty otherwise; the Syslog parser sets the message
to the text after the first `": "` when that occurrence is at offset
greater than 15 (which is empty when the line ends right there) and to
the whole raw line otherwise. -/
theorem parsers_message_amended (a b c : Nat) (line : List Char) (h : line ≠ []) :
    (genericLine a b c line).message = line ∧
    (log4jLine a b c line).message ≠ [] ∧
    (apacheLine a b c line).message = (if (findChar line ' ').isSome then line else []) ∧
    (syslogLine a b c line).message =
      (match findSubstr ": ".data line with
       | some p => if p > 15 then line.drop (p + 2) else line
       | none => line) := by
  refine ⟨?_, ?_, ?_, ?_⟩
  · unfold genericLine
    split_ifs <;> (try split) <;> simp
  · simp only [log4jLine]
    exact ite_message_ne _ _ h
  · unfold apacheLine
    cases hip : findChar line ' ' <;> simp [hip]
  · unfold syslogLine
    cases hcp : findSubstr ": ".data line <;> simp [hcp]
    all_goals split_ifs <;> simp

/-- Witness for `parsers_message_amended` at a concrete non-empty line. -/
theorem parsers_message_amended_witness :
    ("x: y".data ≠ []) ∧ (genericLine 0 4 1 "x: y".data).message = "x: y".data :=
  ⟨by decide, (parsers_message_amended 0 4 1 "x: y".data (by decide)).1⟩

/-- **C1 counterexample** — the claimed invariant "every record from a
non-empty line has a non-empty message" fails: on a document detected as
WebAccess whose second line is the non-empty `abc` (it contains no
space), the WebAccess parser produces a record whose message is empty,
and in particular does not fall back to the raw line. -/
theorem message_invariant_counterexample :
    (Update (some ("1.2.3.4 - - [t] \"GET /a HTTP/1.1\" 200 1\nabc".data))
        freshState).2.detectedFormat = .Apache ∧
    (Update (some ("1.2.3.4 - - [t] \"GET /a HTTP/1.1\" 200 1\nabc".data))
        freshState).2.entries.map (fun e => e.message) =
      ["1.2.3.4 - - [t] \"GET /a HTTP/1.1\" 200 1".data, []] := by
  decide

/-! ### WebAccess status and severity (C5) -/

/-- **C5 (amended)** — in the WebAccess parser, for every line that
contains a space (the IP delimiter) and a quoted request, `httpStatus`
is the decimal value of the first run of digits after the closing quote
(0 when the remainder holds no digit), and the severity is Error for
status ≥ 500, Warning for ≥ 400 and Info otherwise — but only when a
digit run exists; when the remainder is non-numeric the level stays
`Unknown` (not Info), and a line without a space skips the whole
extraction. -/
theorem apache_status_level_amended (a b c : Nat) (line : List Char)
    (hsp : (findChar line ' ').isSome)
    (rs : Nat) (hrs : findChar line '"' = some rs)
    (re : Nat) (hre : findCharFrom line '"' (rs + 1) = some re) :
    (apacheLine a b c line).httpStatus =
      (match findFirstDigit (line.drop (re + 1)) with
       | some n => digitRunValue ((line.drop (re + 1)).drop n)
       | none => 0) ∧
    (apacheLine a b c line).level =
      (match findFirstDigit (line.drop (re + 1)) with
       | none => .Unknown
       | some n =>
         if 500 ≤ digitRunValue ((line.drop (re + 1)).drop n) then .Error
         else if 400 ≤ digitRunValue ((line.drop (re + 1)).drop n) then .Warning
         else .Info) := by
  obtain ⟨ipEnd, hip⟩ := Option.isSome_iff_exists.mp hsp
  unfold apacheLine
  simp only [hip, hrs, hre]
  cases hfd : findFirstDigit (line.drop (re + 1)) <;> simp only [hfd]
  all_goals repeat' split
  all_goals simp_all

/-- Witness for `apache_status_level_amended` on a concrete 5xx line. -/
theorem apache_status_level_amended_witness :
    (apacheLine 0 39 1 ("1.2.3.4 - - [t] \"GET /a HTTP/1.1\" 503 7".data)).httpStatus =
      (match findFirstDigit (("1.2.3.4 - - [t] \"GET /a HTTP/1.1\" 503 7".data).drop 33) with
       | some n =>
         digitRunValue ((("1.2.3.4 - - [t] \"GET /a HTTP/1.1\" 503 7".data).drop 33).drop n)
       | none => 0) :=
  (apache_status_level_amended 0 39 1 _ (by decide) 16 (by decide) 32 (by decide)).1

/-- **C5 counterexample** — the claim as stated fails twice: the line
`"x"9` contains a quoted request and a digit `9` after the closing
quote, yet `httpStatus` stays 0 (the parser first requires a space);
and the line `a "x" z` has a non-numeric remainder after the quote, for
which the claim promises severity Info but the parser leaves the level
`Unknown`. -/
theorem apache_status_level_counterexample :
    ((apacheLine 0 4 1 ("\"x\"9".data)).httpStatus = 0 ∧
     (apacheLine 0 4 1 ("\"x\"9".data)).level = .Unknown) ∧
    ((apacheLine 0 7 1 ("a \"x\" z".data)).httpStatus = 0 ∧
     (apacheLine 0 7 1 ("a \"x\" z".data)).level = .Unknown ∧
     LogLevel.Unknown ≠ LogLevel.Info) := by
  decide

/-! ### Syslog reference definition (C6) -/

/-- Reference (from the claim's words): the first 15 characters become the
timestamp verbatim when the line has at least 15 characters, empty
otherwise. -/
def syslogRefTimestamp (line : List Char) : List Char :=
  if line.length ≥ 15 then line.take 15 else []

/-- Reference (from the claim's words): if `": "` occurs (first occurrence)
at an offset greater than 15, the source is the text after the first
space within the range from offset 16 to that colon and the message is
the text after the `": "`; otherwise the message is the whole line and
the source stays empty. -/
def syslogRefSplit (line : List Char) : List Char × List Char :=
  match findSubstr ": ".data line with
  | some p =>
    if p > 15 then
      let host := (line.drop 16).take (p - 16)
      ((match findChar host ' ' with
        | some q => host.drop (q + 1)
        | none => []),
       line.drop (p + 2))
    else ([], line)
  | none => ([], line)

/-- Reference (from the claim's words): level from a case-insensitive
substring search over the extracted message, with priority
ERROR/FAIL, then WARN, then DEBUG, else Info. -/
def syslogRefLevel (msg : List Char) : LogLevel :=
  if containsSub (upStr msg) "ERROR".data ∨ containsSub (upStr msg) "FAIL".data then .Error
  else if containsSub (upStr msg) "WARN".data then .Warning
  else if containsSub (upStr msg) "DEBUG".data then .Debug
  else .Info

/-- **C6** — for every non-empty line the Syslog parser produces exactly
the record given by the reference definition transcribed from the spec:
`syslogRefTimestamp`, `syslogRefSplit` (source and message) and
`syslogRefLevel` applied to the extracted message. -/
theorem syslog_matches_reference (a b c : Nat) (line : List Char) (_h : line ≠ []) :
    (syslogLine a b c line).timestamp = syslogRefTimestamp line ∧
    (syslogLine a b c line).source = (syslogRefSplit line).1 ∧
    (syslogLine a b c line).message = (syslogRefSplit line).2 ∧
    (syslogLine a b c line).level = syslogRefLevel (syslogRefSplit line).2 := by
  unfold syslogLine syslogRefTimestamp syslogRefSplit syslogRefLevel
  cases hcp : findSubstr ": ".data line <;> simp only [hcp]
  all_goals repeat' split
  all_goals simp_all

/-- Witness for `syslog_matches_reference` on a concrete syslog line. -/
theorem syslog_matches_reference_witness :
    (syslogLine 0 45 1 ("Jan  1 12:00:00 myhost sshd[42]: failed login".data)).message =
      (syslogRefSplit ("Jan  1 12:00:00 myhost sshd[42]: failed login".data)).2 ∧
    (syslogLine 0 45 1 ("Jan  1 12:00:00 myhost sshd[42]: failed login".data)).level =
      syslogRefLevel
        (syslogRefSplit ("Jan  1 12:00:00 myhost sshd[42]: failed login".data)).2 :=
  ⟨(syslog_matches_reference 0 45 1 _ (by decide)).2.2.1,
   (syslog_matches_reference 0 45 1 _ (by decide)).2.2.2⟩

/-! ### Tokenizer word classification (C8) -/

/-- The uppercase image of a word run used by the tokenizer's classifier
(non-ASCII characters dropped). -/
def wordUpperOf (run : List Char) : List Char :=
  (run.filter (fun c => c.toNat < 128)).map upChar

/-- Every keyword the tokenizer's word classifier recognizes. -/
def tokenizerKeywords : List (List Char) :=
  ["ERROR".data, "ERR".data, "ERRO".data, "WARN".data, "WARNING".data, "WRN".data,
   "INFO".data, "INF".data, "INFORMATION".data, "DEBUG".data, "DBG".data, "DEBU".data,
   "TRACE".data, "TRC".data, "FATAL".data, "FTL".data, "CRITICAL".data, "CRIT".data,
   "GET".data, "POST".data, "PUT".data, "DELETE".data, "PATCH".data, "HEAD".data,
   "OPTIONS".data, "CONNECT".data, "HTTP".data]

/-- **C8 (amended)** — the tokenizer's word classifier maps each log-level
alias of its own table (the §4.1 table *minus* `NOTICE`) to the
corresponding level token, maps the HTTP-method keywords and the literal
`HTTP` to `HTTPMethod`, gives level keywords priority over HTTP methods
(so `TRACE` is a level token, never `HTTPMethod`), classifies after
uppercasing (lowercase aliases classify identically), and tags any word
whose uppercase image is none of its keywords as generic `Message`. -/
theorem tokenizer_word_classification :
    (classifyWord "ERROR".data = .LevelError ∧ classifyWord "ERR".data = .LevelError ∧
     classifyWord "ERRO".data = .LevelError ∧
     classifyWord "WARN".data = .LevelWarning ∧
     classifyWord "WARNING".data = .LevelWarning ∧
     classifyWord "WRN".data = .LevelWarning ∧
     classifyWord "INFO".data = .LevelInfo ∧ classifyWord "INF".data = .LevelInfo ∧
     classifyWord "INFORMATION".data = .LevelInfo ∧
     classifyWord "DEBUG".data = .LevelDebug ∧ classifyWord "DBG".data = .LevelDebug ∧
     classifyWord "DEBU".data = .LevelDebug ∧
     classifyWord "TRACE".data = .LevelDebug ∧ classifyWord "TRC".data = .LevelDebug ∧
     classifyWord "FATAL".data = .LevelError ∧ classifyWord "FTL".data = .LevelError ∧
     classifyWord "CRIT".data = .LevelError ∧ classifyWord "CRITICAL".data = .LevelError) ∧
    (classifyWord "GET".data = .HTTPMethod ∧ classifyWord "POST".data = .HTTPMethod ∧
     classifyWord "PUT".data = .HTTPMethod ∧ classifyWord "DELETE".data = .HTTPMethod ∧
     classifyWord "PATCH".data = .HTTPMethod ∧ classifyWord "HEAD".data = .HTTPMethod ∧
     classifyWord "OPTIONS".data = .HTTPMethod ∧
     classifyWord "CONNECT".data = .HTTPMethod ∧
     classifyWord "HTTP".data = .HTTPMethod) ∧
    (classifyWord "TRACE".data ≠ .HTTPMethod) ∧
    (classifyWord "error".data = .LevelError ∧ classifyWord "Get".data = .HTTPMethod ∧
     classifyWord "trace".data = .LevelDebug) ∧
    (AnalyzeText "TRACE".data = [⟨.LevelDebug, 0, 5⟩]) ∧
    (∀ run : List Char, wordUpperOf run ∉ tokenizerKeywords → classifyWord run = .Message) := by
  refine ⟨by decide, by decide, by decide, by decide, by decide, ?_⟩
  intro run h
  simp only [classifyWord]
  simp only [wordUpperOf] at h
  split_ifs with h1 h2 h3 h4 h5 h6 h7 h8
  · exact absurd (by rcases h1 with e | e | e <;> rw [e] <;> decide) h
  · exact absurd (by rcases h2 with e | e | e <;> rw [e] <;> decide) h
  · exact absurd (by rcases h3 with e | e | e <;> rw [e] <;> decide) h
  · exact absurd (by rcases h4 with e | e | e <;> rw [e] <;> decide) h
  · exact absurd (by rcases h5 with e | e <;> rw [e] <;> decide) h
  · exact absurd (by rcases h6 with e | e | e | e <;> rw [e] <;> decide) h
  · exact absurd (by rcases h7 with e | e | e | e | e | e | e | e | e <;> rw [e] <;> decide) h
  · exact absurd (by rw [h8]; decide) h
  · rfl

/-- Witness for `tokenizer_word_classification`: a word that is no keyword
is tagged generic `Message`. -/
theorem tokenizer_word_classification_witness :
    wordUpperOf "hello".data ∉ tokenizerKeywords ∧
    classifyWord "hello".data = .Message :=
  ⟨by decide, tokenizer_word_classification.2.2.2.2.2 "hello".data (by decide)⟩

/-- **C8 counterexample** — `NOTICE` is a §4.1 LevelClassifier alias
(`ParseLogLevel` maps it to `Info`), yet the tokenizer's word classifier
does not recognise it: the run `NOTICE` is tagged generic `Message`, not
`LevelInfo` as the claim states. -/
theorem tokenizer_notice_counterexample :
    ParseLogLevel "NOTICE".data = .Info ∧
    AnalyzeText "NOTICE".data = [⟨.Message, 0, 6⟩] ∧
    TokenKind.Message ≠ TokenKind.LevelInfo := by
  decide

/-! ### Tokenizer totality (C7) -/

/-- Spans in non-decreasing, non-overlapping offset order: each token has a
non-empty extent `[start, stop)`, starts at or after `lo`, and the next
token starts at or after this one's stop. -/
def Ordered : Nat → List Token → Prop
  | _, [] => True
  | lo, t :: ts => lo ≤ t.start ∧ t.start < t.stop ∧ Ordered t.stop ts

/-- Offset `i` lies inside one of the emitted spans. -/
def Covered (ts : List Token) (i : Nat) : Prop :=
  ∃ t ∈ ts, t.start ≤ i ∧ i < t.stop

instance (ts : List Token) (i : Nat) : Decidable (Covered ts i) :=
  List.decidableBEx _ ts

lemma Ordered_mono {lo lo' : Nat} (h : lo ≤ lo') :
    ∀ ts : List Token, Ordered lo' ts → Ordered lo ts
  | [], _ => trivial
  | _ :: _, ho => ⟨le_trans h ho.1, ho.2.1, ho.2.2⟩

lemma Covered_tail {ts : List Token} {tok : Token} {i : Nat} (h : Covered ts i) :
    Covered (tok :: ts) i := by
  obtain ⟨t, ht, hi⟩ := h
  exact ⟨t, List.mem_cons_of_mem _ ht, hi⟩

lemma quoteScan_le (q : Char) : ∀ s : List Char, quoteScan q s ≤ s.length := by
  have key : ∀ n (s : List Char), s.length ≤ n → quoteScan q s ≤ s.length := by
    intro n
    induction n with
    | zero =>
      intro s h
      have : s = [] := List.length_eq_zero.mp (Nat.le_zero.mp h)
      subst this
      simp [quoteScan]
    | succ n ih =>
      intro s h
      cases s with
      | nil => simp [quoteScan]
      | cons c t =>
        unfold quoteScan
        split_ifs
        · simp only [List.length_cons]
          omega
        · omega
        · cases t with
          | nil => simp
          | cons d t2 =>
            have ht2 : t2.length ≤ n := by
              simp only [List.length_cons] at h
              omega
            have := ih t2 ht2
            simp only [List.length_cons]
            omega
        · have ht : t.length ≤ n := by
            simp only [List.length_cons] at h
            omega
          have := ih t ht
          simp only [List.length_cons]
          omega
  exact fun s => key s.length s le_rfl

lemma nlExtra_le (c : Char) (t : List Char) : nlExtra c t ≤ t.length := by
  unfold nlExtra
  cases t with
  | nil => simp
  | cons d t2 => simp only [List.head?_cons]; split_ifs <;> simp

lemma nlExtra_one (c : Char) (t : List Char) (h : nlExtra c t ≠ 0) :
    ∃ d t2, t = d :: t2 ∧ isNlC d = true ∧ nlExtra c t = 1 := by
  unfold nlExtra at h ⊢
  cases t with
  | nil => simp at h
  | cons d t2 =>
    simp only [List.head?_cons] at h ⊢
    split_ifs at h ⊢ with hp
    · refine ⟨d, t2, rfl, ?_, rfl⟩
      rcases hp with ⟨_, rfl⟩ | ⟨_, rfl⟩ <;> decide
    · simp at h

lemma analyzeFrom_ws (fuel : Nat) (c : Char) (t : List Char) (pos : Nat)
    (h : isWsC c = true) :
    analyzeFrom (fuel + 1) (c :: t) pos = analyzeFrom fuel t (pos + 1) := by
  conv_lhs => rw [analyzeFrom.eq_def]
  dsimp only
  rw [if_pos h]

lemma analyzeFrom_nl (fuel : Nat) (c : Char) (t : List Char) (pos : Nat)
    (h1 : isWsC c = false) (h2 : isNlC c = true) :
    analyzeFrom (fuel + 1) (c :: t) pos =
      analyzeFrom fuel (t.drop (nlExtra c t)) (pos + 1 + nlExtra c t) := by
  conv_lhs => rw [analyzeFrom.eq_def]
  dsimp only
  rw [if_neg (by simp [h1]), if_pos h2]

lemma analyzeFrom_bracket (fuel : Nat) (c : Char) (t : List Char) (pos : Nat)
    (h1 : isWsC c = false) (h2 : isNlC c = false) (h3 : isBracketC c = true) :
    analyzeFrom (fuel + 1) (c :: t) pos =
      ⟨.Bracket, pos, pos + 1⟩ :: analyzeFrom fuel t (pos + 1) := by
  conv_lhs => rw [analyzeFrom.eq_def]
  dsimp only
  rw [if_neg (by simp [h1]), if_neg (by simp [h2]), if_pos h3]

lemma analyzeFrom_quote (fuel : Nat) (c : Char) (t : List Char) (pos : Nat)
    (h1 : isWsC c = false) (h2 : isNlC c = false) (h3 : isBracketC c = false)
    (h4 : isQuoteC c = true) :
    analyzeFrom (fuel + 1) (c :: t) pos =
      ⟨.String, pos, pos + (1 + quoteScan c t)⟩ ::
        analyzeFrom fuel (t.drop (quoteScan c t)) (pos + (1 + quoteScan c t)) := by
  conv_lhs => rw [analyzeFrom.eq_def]
  dsimp only
  rw [if_neg (by simp [h1]), if_neg (by simp [h2]), if_neg (by simp [h3]), if_pos h4]

lemma analyzeFrom_digit (fuel : Nat) (c : Char) (t : List Char) (pos : Nat)
    (h1 : isWsC c = false) (h2 : isNlC c = false) (h3 : isBracketC c = false)
    (h4 : isQuoteC c = false) (h5 : c.isDigit = true) :
    analyzeFrom (fuel + 1) (c :: t) pos =
      ⟨numKind (c :: t.takeWhile isNumRunC), pos,
          pos + (1 + (t.takeWhile isNumRunC).length)⟩ ::
        analyzeFrom fuel (t.drop ((t.takeWhile isNumRunC).length))
          (pos + (1 + (t.takeWhile isNumRunC).length)) := by
  conv_lhs => rw [analyzeFrom.eq_def]
  dsimp only
  rw [if_neg (by simp [h1]), if_neg (by simp [h2]), if_neg (by simp [h3]),
    if_neg (by simp [h4]), if_pos h5]
  simp [Nat.add_comm]

lemma analyzeFrom_word (fuel : Nat) (c : Char) (t : List Char) (pos : Nat)
    (h1 : isWsC c = false) (h2 : isNlC c = false) (h3 : isBracketC c = false)
    (h4 : isQuoteC c = false) (h5 : c.isDigit = false) (h6 : isWordStartC c = true) :
    analyzeFrom (fuel + 1) (c :: t) pos =
      ⟨classifyWord (c :: t.takeWhile isWordC), pos,
          pos + (1 + (t.takeWhile isWordC).length)⟩ ::
        analyzeFrom fuel (t.drop ((t.takeWhile isWordC).length))
          (pos + (1 + (t.takeWhile isWordC).length)) := by
  conv_lhs => rw [analyzeFrom.eq_def]
  dsimp only
  rw [if_neg (by simp [h1]), if_neg (by simp [h2]), if_neg (by simp [h3]),
    if_neg (by simp [h4]), if_neg (by simp [h5]), if_pos h6]
  simp [Nat.add_comm]

lemma analyzeFrom_sep (fuel : Nat) (c : Char) (t : List Char) (pos : Nat)
    (h1 : isWsC c = false) (h2 : isNlC c = false) (h3 : isBracketC c = false)
    (h4 : isQuoteC c = false) (h5 : c.isDigit = false) (h6 : isWordStartC c = false) :
    analyzeFrom (fuel + 1) (c :: t) pos =
      ⟨.Separator, pos, pos + 1⟩ :: analyzeFrom fuel t (pos + 1) := by
  conv_lhs => rw [analyzeFrom.eq_def]
  dsimp only
  rw [if_neg (by simp [h1]), if_neg (by simp [h2]), if_neg (by simp [h3]),
    if_neg (by simp [h4]), if_neg (by simp [h5]), if_neg (by simp [h6])]

lemma cons_token_spec (c : Char) (t : List Char) (pos k : Nat) (hk : k ≤ t.length)
    (kind : TokenKind) (ts : List Token)
    (hOrd : Ordered (pos + (1 + k)) ts)
    (hBnd : ∀ tk ∈ ts, pos + (1 + k) ≤ tk.start ∧
        tk.stop ≤ pos + (1 + k) + (t.drop k).length)
    (hGap : ∀ j ch, (t.drop k)[j]? = some ch →
        ¬ Covered ts (pos + (1 + k) + j) → (isWsC ch || isNlC ch) = true) :
    Ordered pos (⟨kind, pos, pos + (1 + k)⟩ :: ts) ∧
    (∀ tk ∈ (⟨kind, pos, pos + (1 + k)⟩ : Token) :: ts,
        pos ≤ tk.start ∧ tk.stop ≤ pos + (c :: t).length) ∧
    (∀ j ch, (c :: t)[j]? = some ch →
        ¬ Covered ((⟨kind, pos, pos + (1 + k)⟩ : Token) :: ts) (pos + j) →
        (isWsC ch || isNlC ch) = true) := by
  have hdl : (t.drop k).length = t.length - k := by simp
  refine ⟨⟨le_refl _, by show pos < pos + (1 + k); omega, hOrd⟩, ?_, ?_⟩
  · intro tk htk
    rcases List.mem_cons.mp htk with rfl | htk
    · refine ⟨le_refl _, ?_⟩
      show pos + (1 + k) ≤ pos + (c :: t).length
      simp only [List.length_cons]
      omega
    · have h := hBnd tk htk
      rw [hdl] at h
      simp only [List.length_cons]
      exact ⟨by omega, by omega⟩
  · intro j ch hch hncov
    by_cases hj : j < 1 + k
    · exact absurd ⟨_, List.mem_cons_self _ _, by simp, by simp; omega⟩ hncov
    · have hch' : (t.drop k)[j - (1 + k)]? = some ch := by
        rw [List.getElem?_drop]
        have hcj : (c :: t)[j]? = t[j - 1]? := by
          cases j with
          | zero => omega
          | succ m => simp
        rw [hcj] at hch
        rw [show k + (j - (1 + k)) = j - 1 from by omega]
        exact hch
      have hncov' : ¬ Covered ts (pos + (1 + k) + (j - (1 + k))) := by
        intro hcv
        apply hncov
        apply Covered_tail
        rwa [show pos + (1 + k) + (j - (1 + k)) = pos + j from by omega] at hcv
      exact hGap _ _ hch' hncov'

lemma analyzeFrom_spec : ∀ (fuel : Nat) (rest : List Char) (pos : Nat),
    rest.length ≤ fuel →
    Ordered pos (analyzeFrom fuel rest pos) ∧
    (∀ tk ∈ analyzeFrom fuel rest pos, pos ≤ tk.start ∧ tk.stop ≤ pos + rest.length) ∧
    (∀ j ch, rest[j]? = some ch → ¬ Covered (analyzeFrom fuel rest pos) (pos + j) →
        (isWsC ch || isNlC ch) = true) := by
  intro fuel
  induction fuel with
  | zero =>
    intro rest pos hle
    have he : rest = [] := List.length_eq_zero.mp (Nat.le_zero.mp hle)
    subst he
    have ha : analyzeFrom 0 ([] : List Char) pos = [] := rfl
    rw [ha]
    exact ⟨trivial, by simp, by simp⟩
  | succ fuel ih =>
    intro rest pos hle
    cases rest with
    | nil =>
      have ha : analyzeFrom (fuel + 1) ([] : List Char) pos = [] := rfl
      rw [ha]
      exact ⟨trivial, by simp, by simp⟩
    | cons c t =>
      have hlt : t.length ≤ fuel := by
        simp only [List.length_cons] at hle
        omega
      cases hws : isWsC c with
      | true =>
        rw [analyzeFrom_ws fuel c t pos hws]
        obtain ⟨O, B, G⟩ := ih t (pos + 1) hlt
        refine ⟨Ordered_mono (by omega) _ O, ?_, ?_⟩
        · intro tk htk
          have h := B tk htk
          simp only [List.length_cons]
          exact ⟨by omega, by omega⟩
        · intro j ch hch hncov
          cases j with
          | zero =>
            have : c = ch := by simpa using hch
            subst this
            simp [hws]
          | succ m =>
            have hch' : t[m]? = some ch := by simpa using hch
            have hncov' : ¬ Covered (analyzeFrom fuel t (pos + 1)) (pos + 1 + m) := by
              rwa [show pos + 1 + m = pos + (m + 1) from by omega]
            exact G m ch hch' hncov'
      | false =>
        cases hnl : isNlC c with
        | true =>
          rw [analyzeFrom_nl fuel c t pos hws hnl]
          have hnle := nlExtra_le c t
          have hdle : (t.drop (nlExtra c t)).length ≤ fuel := by
            simp only [List.length_drop]
            omega
          obtain ⟨O, B, G⟩ := ih (t.drop (nlExtra c t)) (pos + 1 + nlExtra c t) hdle
          refine ⟨Ordered_mono (by omega) _ O, ?_, ?_⟩
          · intro tk htk
            have h := B tk htk
            simp only [List.length_drop] at h
            simp only [List.length_cons]
            exact ⟨by omega, by omega⟩
          · intro j ch hch hncov
            cases j with
            | zero =>
              have : c = ch := by simpa using hch
              subst this
              simp [hnl]
            | succ m =>
              by_cases hm : m < nlExtra c t
              · obtain ⟨d, t2, ht2, hd, hone⟩ := nlExtra_one c t (by omega)
                have hm0 : m = 0 := by omega
                subst hm0
                subst ht2
                have : d = ch := by simpa using hch
                subst this
                simp [hd]
              · have hch' : (t.drop (nlExtra c t))[m - nlExtra c t]? = some ch := by
                  rw [List.getElem?_drop,
                    show nlExtra c t + (m - nlExtra c t) = m from by omega]
                  simpa using hch
                have hncov' : ¬ Covered (analyzeFrom fuel (t.drop (nlExtra c t))
                    (pos + 1 + nlExtra c t)) (pos + 1 + nlExtra c t + (m - nlExtra c t)) := by
                  rwa [show pos + 1 + nlExtra c t + (m - nlExtra c t) = pos + (m + 1) from by
                    omega]
                exact G _ _ hch' hncov'
        | false =>
          cases hbr : isBracketC c with
          | true =>
            rw [analyzeFrom_bracket fuel c t pos hws hnl hbr]
            obtain ⟨O, B, G⟩ := ih t (pos + 1) hlt
            exact cons_token_spec c t pos 0 (Nat.zero_le _) .Bracket _ O B G
          | false =>
            cases hq : isQuoteC c with
            | true =>
              rw [analyzeFrom_quote fuel c t pos hws hnl hbr hq]
              have hqle := quoteScan_le c t
              have hdle : (t.drop (quoteScan c t)).length ≤ fuel := by
                simp only [List.length_drop]
                omega
              obtain ⟨O, B, G⟩ :=
                ih (t.drop (quoteScan c t)) (pos + (1 + quoteScan c t)) hdle
              exact cons_token_spec c t pos (quoteScan c t) hqle .String _ O B G
            | false =>
              cases hd : c.isDigit with
              | true =>
                rw [analyzeFrom_digit fuel c t pos hws hnl hbr hq hd]
                have hkle := (t.takeWhile_prefix isNumRunC).length_le
                have hdle : (t.drop ((t.takeWhile isNumRunC).length)).length ≤ fuel := by
                  simp only [List.length_drop]
                  omega
                obtain ⟨O, B, G⟩ := ih (t.drop ((t.takeWhile isNumRunC).length))
                  (pos + (1 + (t.takeWhile isNumRunC).length)) hdle
                exact cons_token_spec c t pos ((t.takeWhile isNumRunC).length) hkle _ _ O B G
              | false =>
                cases hw : isWordStartC c with
                | true =>
                  rw [analyzeFrom_word fuel c t pos hws hnl hbr hq hd hw]
                  have hkle := (t.takeWhile_prefix isWordC).length_le
                  have hdle : (t.drop ((t.takeWhile isWordC).length)).length ≤ fuel := by
                    simp only [List.length_drop]
                    omega
                  obtain ⟨O, B, G⟩ := ih (t.drop ((t.takeWhile isWordC).length))
                    (pos + (1 + (t.takeWhile isWordC).length)) hdle
                  exact cons_token_spec c t pos ((t.takeWhile isWordC).length) hkle _ _ O B G
                | false =>
                  rw [analyzeFrom_sep fuel c t pos hws hnl hbr hq hd hw]
                  obtain ⟨O, B, G⟩ := ih t (pos + 1) hlt
                  exact cons_token_spec c t pos 0 (Nat.zero_le _) .Separator _ O B G

/-- **C7** — tokenizer totality (`AnalyzeText` is a total function in this
embedding, so termination holds by construction): the emitted spans are
in non-decreasing, non-overlapping offset order with non-empty extents
inside `[0, text.length)`, and every position not covered by a span
holds a whitespace or newline character — hence concatenating the span
extents and the skipped whitespace/newline runs reconstructs the exact
original text, and every non-whitespace, non-newline character belongs
to exactly one span. -/
theorem analyzeText_totality (text : List Char) :
    Ordered 0 (AnalyzeText text) ∧
    (∀ tk ∈ AnalyzeText text, tk.stop ≤ text.length) ∧
    (∀ j ch, text[j]? = some ch → ¬ Covered (AnalyzeText text) j →
        (isWsC ch || isNlC ch) = true) := by
  obtain ⟨O, B, G⟩ := analyzeFrom_spec text.length text 0 le_rfl
  refine ⟨O, ?_, ?_⟩
  · intro tk htk
    have h := (B tk htk).2
    simpa using h
  · intro j ch hch hncov
    have h := G j ch hch (by simpa using hncov)
    exact h

/-- Witness for `analyzeText_totality` on the concrete text `" a"`: the
single emitted token lies within bounds and the uncovered offset 0 holds
a whitespace character. -/
theorem analyzeText_totality_witness :
    (Token.mk .Message 1 2).stop ≤ (" a".data).length ∧
    (isWsC ' ' || isNlC ' ') = true :=
  ⟨(analyzeText_totality (" a".data)).2.1 (Token.mk .Message 1 2) (by decide),
   (analyzeText_totality (" a".data)).2.2 0 ' ' (by decide) (by decide)⟩

end LogSpec
